import Mathlib

/-!
Verification of the faceid-backend canister (src/lib.rs) against its
natural-language specification.

Shallow embedding notes:
- `Principal` is modelled by its textual form (a `String`); the anonymous
  principal and the admin principal are distinguished constants.
- The thread-local `HashMap`/`HashSet` state is modelled by association
  lists and a list-as-set inside `CanisterState`; `HashMap::insert`
  replaces an existing binding, which `setAssoc` mirrors.
- The external inference engine (`onnx::recognize`, `onnx::add`,
  `onnx::setup`) is opaque to the core: each embedded operation takes
  the engine call's outcome as an explicit argument and additionally
  reports (as a `Bool`) whether the engine was actually invoked.
- `f32` scores are never computed with by the core (only stored and
  echoed back), so they are carried as an opaque `Int` payload.
- The per-identity attempt counter is a `u32` incremented on every call
  that passes the enrollment and cache checks (lib.rs:97) with no upper
  guard; release-build wrapping arithmetic is modelled with an explicit
  `% U32_MOD`.
-/

abbrev Principal := String

/-- The IC anonymous principal (`Principal::anonymous()`), in textual form. -/
def anonymousPrincipal : Principal := "2vxsx-fae"

def ADMIN_PRINCIPAL : String :=
  "4s4hz-og66m-hypzp-uxv6q-addgn-hshem-dnvln-uhy7t-h3hsc-pmajb-mqe"

def MAX_ATTEMPTS : Nat := 3

def MAX_ADD_CALLS : Nat := 200

/-- The attempt counter is a `u32` (lib.rs:22); `*count += 1` wraps at
2^32 in a release build. -/
def U32_MOD : Nat := 4294967296

/-- Opaque carrier for the engine's `f32` score: the core never computes
with scores, it only stores and formats them. -/
abbrev Score := Int

structure Person where
  label : String
  score : Score
deriving DecidableEq, Repr

/-- Opaque handle for the embedding returned by `onnx::add`. -/
structure Embedding where
  id : Nat
deriving DecidableEq, Repr

structure Error where
  message : String
deriving DecidableEq, Repr

inductive Recognition where
  | ok : Person → Recognition
  | err : Error → Recognition
deriving DecidableEq, Repr

inductive Addition where
  | ok : Embedding → Addition
  | err : Error → Addition
deriving DecidableEq, Repr

inductive CanisterResponse (α : Type) where
  | ok : α → CanisterResponse α
  | err : String → CanisterResponse α
deriving DecidableEq, Repr

/-- The canister's thread-local mutable state. -/
structure CanisterState where
  recognitionAttempts : List (Principal × Nat)
  recognitionResults : List (Principal × (String × Score))
  addCallers : List Principal
  addCount : Nat
  isEnabled : Bool
deriving DecidableEq, Repr

/-- All maps/sets empty, counter 0, feature flag disabled (the
`thread_local!` initial values). -/
def initState : CanisterState :=
  { recognitionAttempts := []
    recognitionResults := []
    addCallers := []
    addCount := 0
    isEnabled := false }

/-- Association-list lookup (`HashMap::get`). -/
def findAssoc {α : Type} : List (Principal × α) → Principal → Option α
  | [], _ => none
  | (q, v) :: rest, p => if q = p then some v else findAssoc rest p

/-- Association-list insert-or-replace (`HashMap::insert` / `entry`). -/
def setAssoc {α : Type} : List (Principal × α) → Principal → α → List (Principal × α)
  | [], p, v => [(p, v)]
  | (q, w) :: rest, p, v =>
      if q = p then (p, v) :: rest else (q, w) :: setAssoc rest p v

/-- `RECOGNITION_ATTEMPTS` entry for `p`, absent = 0 (`entry(...).or_insert(0)`). -/
def getAttempts (s : CanisterState) (p : Principal) : Nat :=
  (findAssoc s.recognitionAttempts p).getD 0

/-- `RECOGNITION_RESULTS` entry for `p`. -/
def getResult (s : CanisterState) (p : Principal) : Option (String × Score) :=
  findAssoc s.recognitionResults p

/-- `ic_cdk::update fn recognize` (src/lib.rs lines 78-129).
`engine` is the outcome the external `onnx::recognize` call would produce;
the third component of the result records whether that external call was
made. -/
def recognize (s : CanisterState) (caller : Principal) (_image : List Nat)
    (engine : Except String Person) : Recognition × CanisterState × Bool :=
  if ¬ s.addCallers.contains caller then
    (.err ⟨"Unauthorized: User not in the allowed set"⟩, s, false)
  else if (getResult s caller).isSome then
    (.err ⟨"Recognition already successful. Further attempts not allowed"⟩, s, false)
  else
    let attempts := (getAttempts s caller + 1) % U32_MOD
    let s1 := { s with
      recognitionAttempts := setAssoc s.recognitionAttempts caller attempts }
    if attempts > MAX_ATTEMPTS then
      (.err ⟨"Maximum recognition attempts exceeded"⟩, s1, false)
    else
      match engine with
      | .ok person =>
          (.ok person,
           { s1 with recognitionResults :=
               setAssoc s1.recognitionResults caller (person.label, person.score) },
           true)
      | .error e =>
          if attempts = MAX_ATTEMPTS then
            (.err ⟨"Recognition failed after " ++ toString MAX_ATTEMPTS ++ " attempts"⟩,
             s1, true)
          else
            (.err ⟨e⟩, s1, true)

/-- `ic_cdk::update fn add` (src/lib.rs lines 187-245, the live version
with the label-collision check). `engine` is the outcome the external
`onnx::add` call would produce; the third component records whether that
external call was made. -/
def add (s : CanisterState) (caller : Principal) (label : String)
    (_image : List Nat) (code : String)
    (engine : Except String Embedding) : Addition × CanisterState × Bool :=
  if caller = anonymousPrincipal then
    (.err ⟨"Anonymous callers are not allowed"⟩, s, false)
  else if code ≠ "qMu11Dfmw" then
    (.err ⟨"Unauthorized frontend access"⟩, s, false)
  else if ¬ s.isEnabled then
    (.err ⟨"This function is currently disabled"⟩, s, false)
  else if s.addCallers.contains caller then
    (.err ⟨"You have already added a face"⟩, s, false)
  else if s.addCount ≥ MAX_ADD_CALLS then
    (.err ⟨"Maximum number of add calls reached"⟩, s, false)
  else if s.recognitionResults.any (fun e => e.2.1 = label) then
    (.err ⟨"This face has already been recognized and cannot be added again"⟩, s, false)
  else
    match engine with
    | .ok emb =>
        (.ok emb,
         { s with addCallers := caller :: s.addCallers, addCount := s.addCount + 1 },
         true)
    | .error err => (.err ⟨err⟩, s, true)

/-- `Principal::from_text` as the core uses it: the only text ever parsed
is the fixed, well-formed `ADMIN_PRINCIPAL` constant, so parsing is
modelled as always succeeding with the textual form itself. -/
def principalFromText (t : String) : Except String Principal := .ok t

/-- `ic_cdk::update fn toggle_add_function` (src/lib.rs lines 247-259). -/
def toggle_add_function (s : CanisterState) (caller : Principal) (enable : Bool) :
    Except String Unit × CanisterState :=
  match principalFromText ADMIN_PRINCIPAL with
  | .error _ => (.error "Invalid admin principal", s)
  | .ok admin =>
      if caller ≠ admin then
        (.error "Only the admin can toggle this function", s)
      else
        (.ok (), { s with isEnabled := enable })

/-- `fn require_admin` (src/lib.rs lines 365-375). -/
def require_admin (caller : Principal) : Except String Unit :=
  match principalFromText ADMIN_PRINCIPAL with
  | .error _ => .error "Invalid admin principal"
  | .ok admin =>
      if caller ≠ admin then
        .error "Unauthorized: only the admin can perform this action"
      else
        .ok ()

/-- `clear_face_detection_model_bytes`: the `Bool` records whether the
external `storage::clear_bytes` collaborator was invoked. -/
def clear_face_detection_model_bytes (caller : Principal) :
    CanisterResponse Unit × Bool :=
  match require_admin caller with
  | .ok _ => (.ok (), true)
  | .error e => (.err e, false)

/-- `clear_face_recognition_model_bytes`: the `Bool` records whether the
external `storage::clear_bytes` collaborator was invoked. -/
def clear_face_recognition_model_bytes (caller : Principal) :
    CanisterResponse Unit × Bool :=
  match require_admin caller with
  | .ok _ => (.ok (), true)
  | .error e => (.err e, false)

/-- `append_face_detection_model_bytes`: the `Bool` records whether the
external `storage::append_bytes` collaborator was invoked. -/
def append_face_detection_model_bytes (caller : Principal) (_bytes : List Nat) :
    CanisterResponse Unit × Bool :=
  match require_admin caller with
  | .ok _ => (.ok (), true)
  | .error e => (.err e, false)

/-- `append_face_recognition_model_bytes`: the `Bool` records whether the
external `storage::append_bytes` collaborator was invoked. -/
def append_face_recognition_model_bytes (caller : Principal) (_bytes : List Nat) :
    CanisterResponse Unit × Bool :=
  match require_admin caller with
  | .ok _ => (.ok (), true)
  | .error e => (.err e, false)

/-- `setup_models`: `engineSetup` is the outcome of the external
`onnx::setup` call; the `Bool` records whether that call was invoked. -/
def setup_models (caller : Principal) (engineSetup : Except String Unit) :
    CanisterResponse Unit × Bool :=
  match require_admin caller with
  | .ok _ =>
      match engineSetup with
      | .ok _ => (.ok (), true)
      | .error err => (.err ("Failed to setup model: " ++ err), true)
  | .error e => (.err e, false)

structure RecognitionResult where
  label : String
  score : Score
deriving DecidableEq, Repr

/-- `ic_cdk::query fn get_recognition_result` (src/lib.rs lines 352-363).
The caller identity is ambient authority available to every entry point;
it is passed in (as `_caller`) even though the body never reads it. -/
def get_recognition_result (s : CanisterState) (_caller : Principal)
    (user : Principal) : Option RecognitionResult :=
  (getResult s user).map (fun r => { label := r.1, score := r.2 })

/-- `ic_cdk::query fn get_add_callers` (src/lib.rs lines 377-383). -/
def get_add_callers (s : CanisterState) (_caller : Principal) :
    Nat × List Principal :=
  (s.addCallers.length, s.addCallers)

/-- `ic_cdk::query fn get_all_recognition_results` (src/lib.rs lines 385-399). -/
def get_all_recognition_results (s : CanisterState) (_caller : Principal) :
    List String :=
  s.recognitionResults.map (fun e =>
    "principal: " ++ e.1 ++ ", label: " ++ e.2.1 ++ ", score: " ++ toString e.2.2)

/-- One state-mutating entry-point invocation: the caller identity together
with the outcome the external engine would yield if consulted. -/
inductive Op where
  | recognizeOp (caller : Principal) (image : List Nat) (engine : Except String Person)
  | addOp (caller : Principal) (label : String) (image : List Nat) (code : String)
      (engine : Except String Embedding)
  | toggleOp (caller : Principal) (enable : Bool)
deriving Repr

/-- State after one entry-point invocation. -/
def step (s : CanisterState) : Op → CanisterState
  | .recognizeOp c img eng => (recognize s c img eng).2.1
  | .addOp c l img code eng => (add s c l img code eng).2.1
  | .toggleOp c e => (toggle_add_function s c e).2

/-- State after a sequence of entry-point invocations. -/
def runOps (s : CanisterState) : List Op → CanisterState
  | [] => s
  | op :: rest => runOps (step s op) rest

/-- Number of external `onnx::recognize` invocations attributable to `p`
caused by one entry-point invocation. -/
def engineRecCallsOp (s : CanisterState) (op : Op) (p : Principal) : Nat :=
  match op with
  | .recognizeOp c img eng => if c = p ∧ (recognize s c img eng).2.2 then 1 else 0
  | _ => 0

/-- Number of external `onnx::recognize` invocations attributable to `p`
over a sequence of entry-point invocations starting from `s`. -/
def engineRecCalls (s : CanisterState) : List Op → Principal → Nat
  | [], _ => 0
  | op :: rest, p => engineRecCallsOp s op p + engineRecCalls (step s op) rest p

/-- 1 when the invocation is an `add` that succeeds in state `s`, else 0. -/
def addOkCount (s : CanisterState) (op : Op) : Nat :=
  match op with
  | .addOp c l img code eng =>
      match (add s c l img code eng).1 with
      | .ok _ => 1
      | .err _ => 0
  | _ => 0

/-- Number of `add` invocations in the sequence that succeed. -/
def successfulAdds (s : CanisterState) : List Op → Nat
  | [] => 0
  | op :: rest => addOkCount s op + successfulAdds (step s op) rest

/-! ### Concrete scenario building blocks (used to instantiate theorems) -/

/-- The admin enables enrollment. -/
def demoAdminEnable : Op := .toggleOp ADMIN_PRINCIPAL true

/-- Identity `"alice"` enrolls with the valid access code, engine succeeds. -/
def demoEnroll : Op := .addOp "alice" "alice-label" [] "qMu11Dfmw" (.ok ⟨1⟩)

/-- Identity `"alice"` tries to be recognized, the engine fails. -/
def demoFailRec : Op := .recognizeOp "alice" [] (.error "engine boom")

/-- Identity `"alice"` tries to be recognized, the engine matches. -/
def demoOkRec : Op := .recognizeOp "alice" [] (.ok ⟨"carol", 1⟩)

/-- Fresh state with the enrollment feature flag switched on. -/
def enabledState : CanisterState :=
  { recognitionAttempts := []
    recognitionResults := []
    addCallers := []
    addCount := 0
    isEnabled := true }

/-- State whose enrollment counter has reached MAX_ADD_CALLS. -/
def fullState : CanisterState :=
  { recognitionAttempts := []
    recognitionResults := []
    addCallers := []
    addCount := 200
    isEnabled := true }

/-- Enrolled `"alice"` with two failed attempts already recorded. -/
def nearLimitState : CanisterState :=
  { recognitionAttempts := [("alice", 2)]
    recognitionResults := []
    addCallers := ["alice"]
    addCount := 1
    isEnabled := false }

/-- Enrolled `"alice"` with the attempt budget already used up. -/
def overLimitState : CanisterState :=
  { recognitionAttempts := [("alice", 3)]
    recognitionResults := []
    addCallers := ["alice"]
    addCount := 1
    isEnabled := false }

/-! ### Association-list lemmas -/

theorem findAssoc_setAssoc_self {α : Type} (m : List (Principal × α)) (p : Principal) (v : α) :
    findAssoc (setAssoc m p v) p = some v := by
  induction m with
  | nil => simp [setAssoc, findAssoc]
  | cons hd tl ih =>
      obtain ⟨q, w⟩ := hd
      by_cases h : q = p
      · simp [setAssoc, findAssoc, h]
      · simp [setAssoc, findAssoc, h, ih]

theorem findAssoc_setAssoc_ne {α : Type} (m : List (Principal × α)) (p q : Principal) (v : α)
    (h : q ≠ p) : findAssoc (setAssoc m p v) q = findAssoc m q := by
  induction m with
  | nil => simp [setAssoc, findAssoc, Ne.symm h]
  | cons hd tl ih =>
      obtain ⟨a, w⟩ := hd
      by_cases h1 : a = p
      · subst h1
        simp [setAssoc, findAssoc, Ne.symm h]
      · by_cases h2 : a = q <;> simp [setAssoc, findAssoc, h, h1, h2, ih]

/-! ### Branch characterizations of `recognize` -/

def unauthorizedErr : Recognition := .err ⟨"Unauthorized: User not in the allowed set"⟩

def alreadyErr : Recognition :=
  .err ⟨"Recognition already successful. Further attempts not allowed"⟩

def maxAttemptsErr : Recognition := .err ⟨"Maximum recognition attempts exceeded"⟩

def failedAfterErr : Recognition :=
  .err ⟨"Recognition failed after " ++ toString MAX_ATTEMPTS ++ " attempts"⟩

/-- State after the attempt counter has been bumped (with u32 wrapping)
for `p`. -/
def bumpAttempts (s : CanisterState) (p : Principal) : CanisterState :=
  { s with recognitionAttempts :=
      setAssoc s.recognitionAttempts p ((getAttempts s p + 1) % U32_MOD) }

/-- State after a successful recognition for `p` has been cached. -/
def cacheResult (s : CanisterState) (p : Principal) (person : Person) : CanisterState :=
  { s with recognitionResults := setAssoc s.recognitionResults p (person.label, person.score) }

theorem recognize_not_enrolled (s : CanisterState) (p : Principal) (img : List Nat)
    (eng : Except String Person) (h : p ∉ s.addCallers) :
    recognize s p img eng = (unauthorizedErr, s, false) := by
  simp [recognize, h, unauthorizedErr]

theorem recognize_cached (s : CanisterState) (p : Principal) (img : List Nat)
    (eng : Except String Person) (hc : p ∈ s.addCallers)
    (hr : (getResult s p).isSome) :
    recognize s p img eng = (alreadyErr, s, false) := by
  simp [recognize, hc, hr, alreadyErr]

theorem recognize_over (s : CanisterState) (p : Principal) (img : List Nat)
    (eng : Except String Person) (hc : p ∈ s.addCallers)
    (hr : getResult s p = none)
    (ha : MAX_ATTEMPTS < (getAttempts s p + 1) % U32_MOD) :
    recognize s p img eng = (maxAttemptsErr, bumpAttempts s p, false) := by
  simp [recognize, hc, hr, ha, maxAttemptsErr, bumpAttempts]

theorem recognize_ok (s : CanisterState) (p : Principal) (img : List Nat)
    (person : Person) (hc : p ∈ s.addCallers)
    (hr : getResult s p = none)
    (ha : (getAttempts s p + 1) % U32_MOD ≤ MAX_ATTEMPTS) :
    recognize s p img (.ok person) =
      (.ok person, cacheResult (bumpAttempts s p) p person, true) := by
  simp [recognize, hc, hr, Nat.not_lt.mpr ha, bumpAttempts, cacheResult]

theorem recognize_fail_last (s : CanisterState) (p : Principal) (img : List Nat)
    (e : String) (hc : p ∈ s.addCallers)
    (hr : getResult s p = none)
    (ha : (getAttempts s p + 1) % U32_MOD = MAX_ATTEMPTS) :
    recognize s p img (.error e) = (failedAfterErr, bumpAttempts s p, true) := by
  simp [recognize, hc, hr, ha, failedAfterErr, bumpAttempts]

theorem recognize_fail_retry (s : CanisterState) (p : Principal) (img : List Nat)
    (e : String) (hc : p ∈ s.addCallers)
    (hr : getResult s p = none)
    (ha : (getAttempts s p + 1) % U32_MOD < MAX_ATTEMPTS) :
    recognize s p img (.error e) = (.err ⟨e⟩, bumpAttempts s p, true) := by
  simp [recognize, hc, hr, Nat.lt_asymm ha, Nat.ne_of_lt ha, bumpAttempts]

/-! ### Branch characterizations of `add` -/

theorem add_anon (s : CanisterState) (l : String) (img : List Nat) (code : String)
    (eng : Except String Embedding) :
    add s anonymousPrincipal l img code eng =
      (.err ⟨"Anonymous callers are not allowed"⟩, s, false) := by
  simp [add]

theorem add_badcode (s : CanisterState) (c : Principal) (l : String) (img : List Nat)
    (code : String) (eng : Except String Embedding)
    (h1 : c ≠ anonymousPrincipal) (h2 : code ≠ "qMu11Dfmw") :
    add s c l img code eng = (.err ⟨"Unauthorized frontend access"⟩, s, false) := by
  simp [add, h1, h2]

theorem add_disabled (s : CanisterState) (c : Principal) (l : String) (img : List Nat)
    (eng : Except String Embedding)
    (h1 : c ≠ anonymousPrincipal) (h3 : s.isEnabled = false) :
    add s c l img "qMu11Dfmw" eng =
      (.err ⟨"This function is currently disabled"⟩, s, false) := by
  simp [add, h1, h3]

theorem add_already (s : CanisterState) (c : Principal) (l : String) (img : List Nat)
    (eng : Except String Embedding)
    (h1 : c ≠ anonymousPrincipal) (h3 : s.isEnabled = true) (h4 : c ∈ s.addCallers) :
    add s c l img "qMu11Dfmw" eng =
      (.err ⟨"You have already added a face"⟩, s, false) := by
  simp [add, h1, h3, h4]

theorem add_capacity (s : CanisterState) (c : Principal) (l : String) (img : List Nat)
    (eng : Except String Embedding)
    (h1 : c ≠ anonymousPrincipal) (h3 : s.isEnabled = true) (h4 : c ∉ s.addCallers)
    (h5 : MAX_ADD_CALLS ≤ s.addCount) :
    add s c l img "qMu11Dfmw" eng =
      (.err ⟨"Maximum number of add calls reached"⟩, s, false) := by
  simp [add, h1, h3, h4, h5]

theorem add_label_taken (s : CanisterState) (c : Principal) (l : String) (img : List Nat)
    (eng : Except String Embedding)
    (h1 : c ≠ anonymousPrincipal) (h3 : s.isEnabled = true) (h4 : c ∉ s.addCallers)
    (h5 : s.addCount < MAX_ADD_CALLS)
    (h6 : s.recognitionResults.any (fun e => e.2.1 = l) = true) :
    add s c l img "qMu11Dfmw" eng =
      (.err ⟨"This face has already been recognized and cannot be added again"⟩, s, false) := by
  simp [add, h1, h3, h4, Nat.not_le.mpr h5, h6]

theorem add_ok (s : CanisterState) (c : Principal) (l : String) (img : List Nat)
    (emb : Embedding)
    (h1 : c ≠ anonymousPrincipal) (h3 : s.isEnabled = true) (h4 : c ∉ s.addCallers)
    (h5 : s.addCount < MAX_ADD_CALLS)
    (h6 : s.recognitionResults.any (fun e => e.2.1 = l) = false) :
    add s c l img "qMu11Dfmw" (.ok emb) =
      (.ok emb,
       { s with addCallers := c :: s.addCallers, addCount := s.addCount + 1 },
       true) := by
  simp [add, h1, h3, h4, Nat.not_le.mpr h5, h6]

theorem add_engine_fail (s : CanisterState) (c : Principal) (l : String) (img : List Nat)
    (msg : String)
    (h1 : c ≠ anonymousPrincipal) (h3 : s.isEnabled = true) (h4 : c ∉ s.addCallers)
    (h5 : s.addCount < MAX_ADD_CALLS)
    (h6 : s.recognitionResults.any (fun e => e.2.1 = l) = false) :
    add s c l img "qMu11Dfmw" (.error msg) = (.err ⟨msg⟩, s, true) := by
  simp [add, h1, h3, h4, Nat.not_le.mpr h5, h6]

/-! ### Exhaustive case analyses -/

/-- `recognize` leaves the state alone, only bumps the caller's attempt
counter, or bumps it and caches the engine's person. -/
theorem recognize_cases (s : CanisterState) (c : Principal) (img : List Nat)
    (eng : Except String Person) :
    (recognize s c img eng).2.1 = s
  ∨ (recognize s c img eng).2.1 = bumpAttempts s c
  ∨ ∃ person, eng = .ok person ∧ (getResult s c).isSome = false ∧ c ∈ s.addCallers ∧
      (recognize s c img eng).2.1 = cacheResult (bumpAttempts s c) c person := by
  by_cases hc : c ∈ s.addCallers
  · by_cases hr : (getResult s c).isSome
    · left
      rw [recognize_cached s c img eng hc hr]
    · have hr' : getResult s c = none := by
        rwa [Option.isSome_iff_ne_none, not_ne_iff] at hr
      by_cases ha : MAX_ATTEMPTS < (getAttempts s c + 1) % U32_MOD
      · right; left
        rw [recognize_over s c img eng hc hr' ha]
      · cases eng with
        | ok person =>
            right; right
            refine ⟨person, rfl, by simp [hr'], hc, ?_⟩
            rw [recognize_ok s c img person hc hr' (Nat.not_lt.mp ha)]
        | error e =>
            right; left
            by_cases hl : (getAttempts s c + 1) % U32_MOD = MAX_ATTEMPTS
            · rw [recognize_fail_last s c img e hc hr' hl]
            · have hlt : (getAttempts s c + 1) % U32_MOD < MAX_ATTEMPTS :=
                Nat.lt_of_le_of_ne (Nat.not_lt.mp ha) hl
              rw [recognize_fail_retry s c img e hc hr' hlt]
  · left
    rw [recognize_not_enrolled s c img eng hc]

/-- `add` either fails leaving the state alone, or succeeds, enrolling the
(previously unenrolled) caller and incrementing the counter. -/
theorem add_cases (s : CanisterState) (c : Principal) (l : String) (img : List Nat)
    (code : String) (eng : Except String Embedding) :
    ((add s c l img code eng).2.1 = s ∧ ∀ emb, (add s c l img code eng).1 ≠ .ok emb)
  ∨ (∃ emb, eng = .ok emb ∧ c ∉ s.addCallers ∧
      (add s c l img code eng).1 = .ok emb ∧
      (add s c l img code eng).2.1 =
        { s with addCallers := c :: s.addCallers, addCount := s.addCount + 1 }) := by
  unfold add
  by_cases h1 : c = anonymousPrincipal
  · left; simp [h1]
  · by_cases h2 : code = "qMu11Dfmw"
    · by_cases h3 : s.isEnabled
      · by_cases h4 : c ∈ s.addCallers
        · left; simp [h1, h2, h3, h4]
        · by_cases h5 : MAX_ADD_CALLS ≤ s.addCount
          · left; simp [h1, h2, h3, h4, h5]
          · by_cases h6 : s.recognitionResults.any (fun e => e.2.1 = l)
            · left; simp [h1, h2, h3, h4, h5, h6]
            · cases eng with
              | ok emb =>
                  right
                  exact ⟨emb, rfl, h4, by simp [h1, h2, h3, h4, h5, h6]⟩
              | error e => left; simp [h1, h2, h3, h4, h5, h6]
      · left; simp [h1, h2, h3]
    · left; simp [h1, h2]

/-! ### Step-level preservation lemmas -/

theorem recognize_addCallers (s : CanisterState) (c : Principal) (img : List Nat)
    (eng : Except String Person) :
    (recognize s c img eng).2.1.addCallers = s.addCallers := by
  rcases recognize_cases s c img eng with h | h | ⟨person, _, _, _, h⟩ <;>
    simp [h, bumpAttempts, cacheResult]

theorem recognize_addCount (s : CanisterState) (c : Principal) (img : List Nat)
    (eng : Except String Person) :
    (recognize s c img eng).2.1.addCount = s.addCount := by
  rcases recognize_cases s c img eng with h | h | ⟨person, _, _, _, h⟩ <;>
    simp [h, bumpAttempts, cacheResult]

theorem recognize_attempts_other (s : CanisterState) (c : Principal) (img : List Nat)
    (eng : Except String Person) (p : Principal) (hne : c ≠ p) :
    getAttempts (recognize s c img eng).2.1 p = getAttempts s p := by
  rcases recognize_cases s c img eng with h | h | ⟨person, _, _, _, h⟩ <;>
    simp [h, bumpAttempts, cacheResult, getAttempts, findAssoc_setAssoc_ne _ _ _ _ (Ne.symm hne)]

/-- How one recognize call treats its own caller's counter and the engine,
in the regime where the u32 increment cannot wrap: either the engine is
not consulted and the counter stays or moves up by one, or the engine is
consulted and the post-increment counter is within the ceiling. -/
theorem recognize_flag_attempts (s : CanisterState) (p : Principal) (img : List Nat)
    (eng : Except String Person) (hw : getAttempts s p + 1 < U32_MOD) :
    ((recognize s p img eng).2.2 = false ∧
      (getAttempts (recognize s p img eng).2.1 p = getAttempts s p ∨
       getAttempts (recognize s p img eng).2.1 p = getAttempts s p + 1))
  ∨ ((recognize s p img eng).2.2 = true ∧
      getAttempts (recognize s p img eng).2.1 p = getAttempts s p + 1 ∧
      getAttempts s p + 1 ≤ MAX_ATTEMPTS) := by
  have hmod : (getAttempts s p + 1) % U32_MOD = getAttempts s p + 1 := Nat.mod_eq_of_lt hw
  by_cases hc : p ∈ s.addCallers
  · by_cases hr : (getResult s p).isSome
    · left
      rw [recognize_cached s p img eng hc hr]
      exact ⟨rfl, Or.inl rfl⟩
    · have hr' : getResult s p = none := by
        rwa [Option.isSome_iff_ne_none, not_ne_iff] at hr
      by_cases ha : MAX_ATTEMPTS < (getAttempts s p + 1) % U32_MOD
      · left
        rw [recognize_over s p img eng hc hr' ha]
        refine ⟨rfl, Or.inr ?_⟩
        rw [← hmod]
        simp [bumpAttempts, getAttempts, findAssoc_setAssoc_self]
      · have ha' : (getAttempts s p + 1) % U32_MOD ≤ MAX_ATTEMPTS := Nat.not_lt.mp ha
        have hle : getAttempts s p + 1 ≤ MAX_ATTEMPTS := by rwa [hmod] at ha'
        cases eng with
        | ok person =>
            right
            rw [recognize_ok s p img person hc hr' ha']
            refine ⟨rfl, ?_, hle⟩
            rw [← hmod]
            simp [cacheResult, bumpAttempts, getAttempts, findAssoc_setAssoc_self]
        | error e =>
            right
            by_cases hl : (getAttempts s p + 1) % U32_MOD = MAX_ATTEMPTS
            · rw [recognize_fail_last s p img e hc hr' hl]
              refine ⟨rfl, ?_, hle⟩
              rw [← hmod]
              simp [bumpAttempts, getAttempts, findAssoc_setAssoc_self]
            · rw [recognize_fail_retry s p img e hc hr' (Nat.lt_of_le_of_ne ha' hl)]
              refine ⟨rfl, ?_, hle⟩
              rw [← hmod]
              simp [bumpAttempts, getAttempts, findAssoc_setAssoc_self]
  · left
    rw [recognize_not_enrolled s p img eng hc]
    exact ⟨rfl, Or.inl rfl⟩

theorem toggle_state (s : CanisterState) (c : Principal) (e : Bool) :
    (toggle_add_function s c e).2 = if c = ADMIN_PRINCIPAL then { s with isEnabled := e } else s := by
  by_cases h : c = ADMIN_PRINCIPAL <;> simp [toggle_add_function, principalFromText, h]

/-- Enrollment-set membership survives every operation. -/
theorem step_enrolled_mono (s : CanisterState) (op : Op) (p : Principal)
    (h : p ∈ s.addCallers) : p ∈ (step s op).addCallers := by
  cases op with
  | recognizeOp c img eng => rw [step, recognize_addCallers]; exact h
  | addOp c l img code eng =>
      rcases add_cases s c l img code eng with ⟨hs, _⟩ | ⟨emb, _, _, _, hs⟩ <;>
        rw [step, hs]
      · exact h
      · exact List.mem_cons_of_mem _ h
  | toggleOp c e =>
      rw [step, toggle_state]
      by_cases hc : c = ADMIN_PRINCIPAL <;> simp [hc, h]

/-- A cached recognition entry survives every operation unchanged. -/
theorem step_result_stable (s : CanisterState) (op : Op) (p : Principal)
    (r : String × Score) (h : getResult s p = some r) :
    getResult (step s op) p = some r := by
  cases op with
  | recognizeOp c img eng =>
      rcases recognize_cases s c img eng with hs | hs | ⟨person, _, hnone, _, hs⟩ <;>
        rw [step, hs]
      · exact h
      · simpa [getResult, bumpAttempts] using h
      · by_cases hcp : c = p
        · subst hcp
          rw [h] at hnone
          simp at hnone
        · simpa [getResult, cacheResult, bumpAttempts,
            findAssoc_setAssoc_ne _ _ _ _ (Ne.symm hcp)] using h
  | addOp c l img code eng =>
      rcases add_cases s c l img code eng with ⟨hs, _⟩ | ⟨emb, _, _, _, hs⟩ <;>
        rw [step, hs] <;> simpa [getResult] using h
  | toggleOp c e =>
      rw [step, toggle_state]
      by_cases hc : c = ADMIN_PRINCIPAL <;> simpa [hc, getResult] using h

/-- Invariant: every identity with a cached result is enrolled. -/
def CachedEnrolled (s : CanisterState) : Prop :=
  ∀ p, (getResult s p).isSome → p ∈ s.addCallers

theorem step_cachedEnrolled (s : CanisterState) (op : Op)
    (h : CachedEnrolled s) : CachedEnrolled (step s op) := by
  intro p hp
  cases op with
  | recognizeOp c img eng =>
      rcases recognize_cases s c img eng with hs | hs | ⟨person, _, hnone, hcmem, hs⟩
      · rw [step, hs] at hp ⊢
        exact h p hp
      · rw [step, hs] at hp ⊢
        simp only [bumpAttempts] at hp ⊢
        exact h p (by simpa [getResult] using hp)
      · rw [step, hs] at hp ⊢
        simp only [cacheResult, bumpAttempts] at hp ⊢
        by_cases hcp : c = p
        · subst hcp
          exact hcmem
        · apply h p
          simpa [getResult, findAssoc_setAssoc_ne _ _ _ _ (Ne.symm hcp)] using hp
  | addOp c l img code eng =>
      have hmem : p ∈ s.addCallers := by
        apply h p
        rcases add_cases s c l img code eng with ⟨hs, _⟩ | ⟨emb, _, _, _, hs⟩ <;>
          rw [step, hs] at hp <;> simpa [getResult] using hp
      exact step_enrolled_mono s _ p hmem
  | toggleOp c e =>
      have hmem : p ∈ s.addCallers := by
        apply h p
        rw [step, toggle_state] at hp
        by_cases hc : c = ADMIN_PRINCIPAL <;> simpa [hc, getResult] using hp
      exact step_enrolled_mono s _ p hmem

theorem runOps_cachedEnrolled (ops : List Op) :
    ∀ s, CachedEnrolled s → CachedEnrolled (runOps s ops) := by
  induction ops with
  | nil => intro s h; simpa [runOps] using h
  | cons op rest ih =>
      intro s h
      rw [runOps]
      exact ih _ (step_cachedEnrolled s op h)

theorem initState_cachedEnrolled : CachedEnrolled initState := by
  intro p hp
  simp [initState, getResult, findAssoc] at hp

theorem add_recognitionAttempts (s : CanisterState) (c : Principal) (l : String)
    (img : List Nat) (code : String) (eng : Except String Embedding) :
    (add s c l img code eng).2.1.recognitionAttempts = s.recognitionAttempts := by
  rcases add_cases s c l img code eng with ⟨hs, _⟩ | ⟨emb, _, _, _, hs⟩ <;> rw [hs]

theorem add_recognitionResults (s : CanisterState) (c : Principal) (l : String)
    (img : List Nat) (code : String) (eng : Except String Embedding) :
    (add s c l img code eng).2.1.recognitionResults = s.recognitionResults := by
  rcases add_cases s c l img code eng with ⟨hs, _⟩ | ⟨emb, _, _, _, hs⟩ <;> rw [hs]

theorem step_attempts_addOp (s : CanisterState) (c : Principal) (l : String)
    (img : List Nat) (code : String) (eng : Except String Embedding) (p : Principal) :
    getAttempts (step s (.addOp c l img code eng)) p = getAttempts s p := by
  simp [step, getAttempts, add_recognitionAttempts]

theorem step_attempts_toggleOp (s : CanisterState) (c : Principal) (e : Bool)
    (p : Principal) :
    getAttempts (step s (.toggleOp c e)) p = getAttempts s p := by
  rw [step, toggle_state]
  by_cases hc : c = ADMIN_PRINCIPAL <;> simp [hc, getAttempts]

/-- Key budget lemma: over a sequence short enough that `p`'s u32 attempt
counter cannot wrap, the engine invocations attributable to `p` are
bounded by what remains of `p`'s attempt budget. -/
theorem engineRecCalls_le (ops : List Op) :
    ∀ s p, getAttempts s p + ops.length < U32_MOD →
      engineRecCalls s ops p ≤ MAX_ATTEMPTS - getAttempts s p := by
  induction ops with
  | nil => intro s p _; simp [engineRecCalls]
  | cons op rest ih =>
      intro s p hlen
      simp only [List.length_cons] at hlen
      rw [engineRecCalls]
      cases op with
      | recognizeOp c img eng =>
          by_cases hcp : c = p
          · subst hcp
            have hw : getAttempts s c + 1 < U32_MOD := by omega
            have hstep : getAttempts (step s (Op.recognizeOp c img eng)) c
                = getAttempts (recognize s c img eng).2.1 c := rfl
            rcases recognize_flag_attempts s c img eng hw with ⟨hf, hor⟩ | ⟨hf, heq, hbound⟩
            · have h0 : engineRecCallsOp s (.recognizeOp c img eng) c = 0 := by
                simp [engineRecCallsOp, hf]
              rw [h0, Nat.zero_add]
              have hval : getAttempts (step s (Op.recognizeOp c img eng)) c = getAttempts s c
                  ∨ getAttempts (step s (Op.recognizeOp c img eng)) c = getAttempts s c + 1 := by
                rw [hstep]
                exact hor
              rcases hval with hnew | hnew
              · have hrest := ih (step s (Op.recognizeOp c img eng)) c (by rw [hnew]; omega)
                rw [hnew] at hrest
                exact hrest
              · have hrest := ih (step s (Op.recognizeOp c img eng)) c (by rw [hnew]; omega)
                rw [hnew] at hrest
                omega
            · have h1 : engineRecCallsOp s (.recognizeOp c img eng) c = 1 := by
                simp [engineRecCallsOp, hf]
              rw [h1]
              have hnew : getAttempts (step s (Op.recognizeOp c img eng)) c
                  = getAttempts s c + 1 := by
                rw [hstep]
                exact heq
              have hrest := ih (step s (Op.recognizeOp c img eng)) c (by rw [hnew]; omega)
              rw [hnew] at hrest
              omega
          · have h0 : engineRecCallsOp s (.recognizeOp c img eng) p = 0 := by
              simp [engineRecCallsOp, hcp]
            have hat : getAttempts (step s (.recognizeOp c img eng)) p = getAttempts s p :=
              recognize_attempts_other s c img eng p hcp
            have hrest := ih (step s (.recognizeOp c img eng)) p (by rw [hat]; omega)
            rw [hat] at hrest
            omega
      | addOp c l img code eng =>
          have h0 : engineRecCallsOp s (.addOp c l img code eng) p = 0 := by
            simp [engineRecCallsOp]
          have hat := step_attempts_addOp s c l img code eng p
          have hrest := ih (step s (.addOp c l img code eng)) p (by rw [hat]; omega)
          rw [hat] at hrest
          omega
      | toggleOp c e =>
          have h0 : engineRecCallsOp s (.toggleOp c e) p = 0 := by
            simp [engineRecCallsOp]
          have hat := step_attempts_toggleOp s c e p
          have hrest := ih (step s (.toggleOp c e)) p (by rw [hat]; omega)
          rw [hat] at hrest
          omega

theorem getAttempts_initState (p : Principal) : getAttempts initState p = 0 := by
  simp [getAttempts, initState, findAssoc]

/-- A cached entry survives any sequence of operations. -/
theorem runOps_result_stable (more : List Op) :
    ∀ s p r, getResult s p = some r → getResult (runOps s more) p = some r := by
  induction more with
  | nil => intro s p r h; simpa [runOps] using h
  | cons op rest ih =>
      intro s p r h
      rw [runOps]
      exact ih _ p r (step_result_stable s op p r h)

theorem step_addCount_mono (s : CanisterState) (op : Op) :
    s.addCount ≤ (step s op).addCount := by
  cases op with
  | recognizeOp c img eng => rw [step, recognize_addCount]
  | addOp c l img code eng =>
      rcases add_cases s c l img code eng with ⟨hs, _⟩ | ⟨emb, _, _, _, hs⟩
      · rw [step, hs]
      · rw [step, hs]
        simp
  | toggleOp c e =>
      rw [step, toggle_state]
      by_cases hc : c = ADMIN_PRINCIPAL <;> simp [hc]

/-- The enrollment counter advances by exactly the successful adds. -/
theorem runOps_addCount (ops : List Op) :
    ∀ s, (runOps s ops).addCount = s.addCount + successfulAdds s ops := by
  induction ops with
  | nil => intro s; simp [runOps, successfulAdds]
  | cons op rest ih =>
      intro s
      have hrun : (runOps s (op :: rest)).addCount
          = (step s op).addCount + successfulAdds (step s op) rest := by
        rw [runOps, ih]
      rw [hrun, successfulAdds]
      cases op with
      | recognizeOp c img eng =>
          have h0 : addOkCount s (.recognizeOp c img eng) = 0 := by simp [addOkCount]
          rw [h0, step, recognize_addCount]
          omega
      | addOp c l img code eng =>
          rcases add_cases s c l img code eng with ⟨hs, hno⟩ | ⟨emb, _, _, hok, hs⟩
          · have h0 : addOkCount s (.addOp c l img code eng) = 0 := by
              simp only [addOkCount]
              cases h : (add s c l img code eng).1 with
              | ok emb => exact absurd h (hno emb)
              | err e => rfl
            have hcount : (step s (Op.addOp c l img code eng)).addCount = s.addCount := by
              rw [step, hs]
            rw [h0, hcount]
            omega
          · have h1 : addOkCount s (.addOp c l img code eng) = 1 := by
              simp only [addOkCount, hok]
            have hcount : (step s (Op.addOp c l img code eng)).addCount = s.addCount + 1 := by
              rw [step, hs]
            rw [h1, hcount]
            omega
      | toggleOp c e =>
          have h0 : addOkCount s (.toggleOp c e) = 0 := by simp [addOkCount]
          have hcount : (step s (Op.toggleOp c e)).addCount = s.addCount := by
            rw [step, toggle_state]
            by_cases hc : c = ADMIN_PRINCIPAL <;> simp [hc]
          rw [h0, hcount]
          omega

/-- Counter/set agreement and distinctness are preserved by every step. -/
theorem step_count_length_nodup (s : CanisterState) (op : Op)
    (h : s.addCount = s.addCallers.length ∧ s.addCallers.Nodup) :
    (step s op).addCount = (step s op).addCallers.length ∧ (step s op).addCallers.Nodup := by
  cases op with
  | recognizeOp c img eng =>
      rw [step, recognize_addCount, recognize_addCallers]
      exact h
  | addOp c l img code eng =>
      rcases add_cases s c l img code eng with ⟨hs, _⟩ | ⟨emb, _, hnotmem, _, hs⟩ <;>
        rw [step, hs]
      · exact h
      · exact ⟨by simp [h.1], List.nodup_cons.mpr ⟨hnotmem, h.2⟩⟩
  | toggleOp c e =>
      rw [step, toggle_state]
      by_cases hc : c = ADMIN_PRINCIPAL <;> simp [hc, h.1, h.2]

theorem runOps_count_length_nodup (ops : List Op) :
    ∀ s, s.addCount = s.addCallers.length ∧ s.addCallers.Nodup →
      (runOps s ops).addCount = (runOps s ops).addCallers.length ∧
      (runOps s ops).addCallers.Nodup := by
  induction ops with
  | nil => intro s h; simpa [runOps] using h
  | cons op rest ih =>
      intro s h
      rw [runOps]
      exact ih _ (step_count_length_nodup s op h)

theorem add_no_ok_at_capacity (s : CanisterState) (c : Principal) (l : String)
    (img : List Nat) (code : String) (eng : Except String Embedding)
    (h : MAX_ADD_CALLS ≤ s.addCount) :
    ∀ emb, (add s c l img code eng).1 ≠ .ok emb := by
  intro emb
  unfold add
  by_cases h1 : c = anonymousPrincipal
  · simp [h1]
  · by_cases h2 : code = "qMu11Dfmw"
    · by_cases h3 : s.isEnabled
      · by_cases h4 : c ∈ s.addCallers
        · simp [h1, h2, h3, h4]
        · simp [h1, h2, h3, h4, h]
      · simp [h1, h2, h3]
    · simp [h1, h2]

/-! ### Claim theorems -/

theorem runOps_append (l1 l2 : List Op) :
    ∀ s, runOps s (l1 ++ l2) = runOps (runOps s l1) l2 := by
  induction l1 with
  | nil => intro s; simp [runOps]
  | cons op rest ih =>
      intro s
      rw [List.cons_append, runOps, runOps, ih]

theorem engineRecCalls_append (l1 l2 : List Op) :
    ∀ s p, engineRecCalls s (l1 ++ l2) p
      = engineRecCalls s l1 p + engineRecCalls (runOps s l1) l2 p := by
  induction l1 with
  | nil => intro s p; simp [engineRecCalls, runOps]
  | cons op rest ih =>
      intro s p
      rw [List.cons_append, engineRecCalls, engineRecCalls, ih, runOps]
      omega

theorem engineRecCalls_single (s : CanisterState) (p : Principal) (img : List Nat)
    (eng : Except String Person) (hf : (recognize s p img eng).2.2 = true) :
    engineRecCalls s [Op.recognizeOp p img eng] p = 1 := by
  rw [engineRecCalls, engineRecCalls]
  simp [engineRecCallsOp, hf]

/-- A block of failing recognize calls by an enrolled, uncached identity
whose counter already sits at or above the ceiling: as long as the u32
counter does not wrap, every call is rejected before the engine, and the
counter just keeps climbing. -/
theorem reject_phase (k : Nat) :
    ∀ (s : CanisterState) (p : Principal) (img : List Nat) (e : String),
      p ∈ s.addCallers → getResult s p = none →
      MAX_ATTEMPTS ≤ getAttempts s p → getAttempts s p + k < U32_MOD →
      engineRecCalls s (List.replicate k (Op.recognizeOp p img (.error e))) p = 0
    ∧ p ∈ (runOps s (List.replicate k (Op.recognizeOp p img (.error e)))).addCallers
    ∧ getResult (runOps s (List.replicate k (Op.recognizeOp p img (.error e)))) p = none
    ∧ getAttempts (runOps s (List.replicate k (Op.recognizeOp p img (.error e)))) p
        = getAttempts s p + k := by
  induction k with
  | zero =>
      intro s p img e hc hr _ _
      simp [engineRecCalls, runOps, hc, hr]
  | succ k ih =>
      intro s p img e hc hr hmin hlt
      rw [List.replicate_succ]
      have hwrap : (getAttempts s p + 1) % U32_MOD = getAttempts s p + 1 :=
        Nat.mod_eq_of_lt (by omega)
      have hover : MAX_ATTEMPTS < (getAttempts s p + 1) % U32_MOD := by
        rw [hwrap]
        omega
      have hrec := recognize_over s p img (.error e) hc hr hover
      have hstate : step s (Op.recognizeOp p img (.error e)) = bumpAttempts s p := by
        rw [step, hrec]
      have hc' : p ∈ (bumpAttempts s p).addCallers := hc
      have hr' : getResult (bumpAttempts s p) p = none := hr
      have hat : getAttempts (bumpAttempts s p) p = getAttempts s p + 1 := by
        rw [← hwrap]
        simp [bumpAttempts, getAttempts, findAssoc_setAssoc_self]
      have hflag : (recognize s p img (.error e)).2.2 = false := by rw [hrec]
      have h0 : engineRecCallsOp s (Op.recognizeOp p img (.error e)) p = 0 := by
        simp [engineRecCallsOp, hflag]
      obtain ⟨i1, i2, i3, i4⟩ :=
        ih (bumpAttempts s p) p img e hc' hr' (by rw [hat]; omega) (by rw [hat]; omega)
      rw [engineRecCalls, runOps, hstate, h0]
      refine ⟨by rw [i1], i2, i3, ?_⟩
      rw [i4, hat]
      omega

/-- C1 counterexample: the attempt counter is a u32 incremented on every
passing call, so after 2^32 failing recognize calls by the enrolled
identity `"alice"` it wraps to 0, the ceiling check passes again, and a
fourth external engine invocation occurs: the engine-invocation count
exceeds MAX_ATTEMPTS on this sequence. -/
theorem engine_budget_wraparound :
    MAX_ATTEMPTS < engineRecCalls initState
      ([demoAdminEnable, demoEnroll] ++
        List.replicate U32_MOD (Op.recognizeOp "alice" [] (.error "engine boom"))) "alice" := by
  have hsplit : List.replicate U32_MOD (Op.recognizeOp "alice" [] (Except.error "engine boom"))
      = List.replicate 3 (Op.recognizeOp "alice" [] (Except.error "engine boom")) ++
        (List.replicate (U32_MOD - 4) (Op.recognizeOp "alice" [] (Except.error "engine boom")) ++
         List.replicate 1 (Op.recognizeOp "alice" [] (Except.error "engine boom"))) := by
    rw [← List.replicate_add, ← List.replicate_add]
    norm_num [U32_MOD]
  rw [hsplit, engineRecCalls_append, engineRecCalls_append, engineRecCalls_append]
  have f1 : engineRecCalls initState [demoAdminEnable, demoEnroll] "alice" = 0 := by decide
  have f2 : engineRecCalls (runOps initState [demoAdminEnable, demoEnroll])
      (List.replicate 3 (Op.recognizeOp "alice" [] (Except.error "engine boom")))
      "alice" = 3 := by decide
  have f3 : "alice" ∈ (runOps (runOps initState [demoAdminEnable, demoEnroll])
      (List.replicate 3 (Op.recognizeOp "alice" [] (Except.error "engine boom")))).addCallers := by
    decide
  have f4 : getResult (runOps (runOps initState [demoAdminEnable, demoEnroll])
      (List.replicate 3 (Op.recognizeOp "alice" [] (Except.error "engine boom"))))
      "alice" = none := by decide
  have f5 : getAttempts (runOps (runOps initState [demoAdminEnable, demoEnroll])
      (List.replicate 3 (Op.recognizeOp "alice" [] (Except.error "engine boom"))))
      "alice" = 3 := by decide
  obtain ⟨p1, p2, p3, p4⟩ :=
    reject_phase (U32_MOD - 4)
      (runOps (runOps initState [demoAdminEnable, demoEnroll])
        (List.replicate 3 (Op.recognizeOp "alice" [] (Except.error "engine boom"))))
      "alice" [] "engine boom" f3 f4
      (by rw [f5]; decide) (by rw [f5]; norm_num [U32_MOD])
  have h6a : getAttempts (runOps (runOps (runOps initState [demoAdminEnable, demoEnroll])
      (List.replicate 3 (Op.recognizeOp "alice" [] (Except.error "engine boom"))))
      (List.replicate (U32_MOD - 4) (Op.recognizeOp "alice" [] (Except.error "engine boom"))))
      "alice" = U32_MOD - 1 := by
    rw [p4, f5]
    norm_num [U32_MOD]
  have hover : (getAttempts (runOps (runOps (runOps initState [demoAdminEnable, demoEnroll])
      (List.replicate 3 (Op.recognizeOp "alice" [] (Except.error "engine boom"))))
      (List.replicate (U32_MOD - 4) (Op.recognizeOp "alice" [] (Except.error "engine boom"))))
      "alice" + 1) % U32_MOD < MAX_ATTEMPTS := by
    rw [h6a]
    norm_num [U32_MOD, MAX_ATTEMPTS]
  have hrec := recognize_fail_retry
    (runOps (runOps (runOps initState [demoAdminEnable, demoEnroll])
      (List.replicate 3 (Op.recognizeOp "alice" [] (Except.error "engine boom"))))
      (List.replicate (U32_MOD - 4) (Op.recognizeOp "alice" [] (Except.error "engine boom"))))
    "alice" [] "engine boom" p2 p3 hover
  have hflag : (recognize
      (runOps (runOps (runOps initState [demoAdminEnable, demoEnroll])
        (List.replicate 3 (Op.recognizeOp "alice" [] (Except.error "engine boom"))))
        (List.replicate (U32_MOD - 4) (Op.recognizeOp "alice" [] (Except.error "engine boom"))))
      "alice" [] (.error "engine boom")).2.2 = true := by
    rw [hrec]
  have hlast : engineRecCalls
      (runOps (runOps (runOps initState [demoAdminEnable, demoEnroll])
        (List.replicate 3 (Op.recognizeOp "alice" [] (Except.error "engine boom"))))
        (List.replicate (U32_MOD - 4) (Op.recognizeOp "alice" [] (Except.error "engine boom"))))
      (List.replicate 1 (Op.recognizeOp "alice" [] (Except.error "engine boom")))
      "alice" = 1 := by
    rw [List.replicate_one]
    exact engineRecCalls_single _ "alice" [] (.error "engine boom") hflag
  rw [f1, f2, p1, hlast]
  decide

/-- C1 (amended): across any sequence of fewer than 2^32 operations from
the initial state — so the u32 attempt counter cannot wrap — the number
of engine recognize invocations attributable to an identity never exceeds
MAX_ATTEMPTS (3), and a call whose wrapped post-increment attempt count
exceeds MAX_ATTEMPTS returns the AttemptsExceeded error with no external
inference call made. (Once the counter wraps, the ceiling check passes
again and further engine calls occur.) -/
theorem recognize_engine_budget_no_wrap :
    ∀ (ops : List Op) (p : Principal),
      (ops.length < U32_MOD → engineRecCalls initState ops p ≤ MAX_ATTEMPTS)
    ∧ (∀ (s : CanisterState) (img : List Nat) (eng : Except String Person),
        p ∈ s.addCallers → getResult s p = none →
        MAX_ATTEMPTS < (getAttempts s p + 1) % U32_MOD →
        (recognize s p img eng).1 = maxAttemptsErr ∧
        (recognize s p img eng).2.2 = false) := by
  intro ops p
  constructor
  · intro hlen
    have h := engineRecCalls_le ops initState p
      (by rw [getAttempts_initState]; simpa using hlen)
    rw [getAttempts_initState] at h
    simpa using h
  · intro s img eng hc hr ha
    rw [recognize_over s p img eng hc hr ha]
    exact ⟨rfl, rfl⟩

theorem recognize_engine_budget_no_wrap_witness :
    engineRecCalls initState
        [demoAdminEnable, demoEnroll, demoFailRec, demoFailRec, demoFailRec, demoFailRec]
        "alice" ≤ MAX_ATTEMPTS
  ∧ ((recognize overLimitState "alice" [] (.error "x")).1 = maxAttemptsErr ∧
     (recognize overLimitState "alice" [] (.error "x")).2.2 = false) :=
  ⟨(recognize_engine_budget_no_wrap
      [demoAdminEnable, demoEnroll, demoFailRec, demoFailRec, demoFailRec, demoFailRec]
      "alice").1 (by decide),
   (recognize_engine_budget_no_wrap
      [demoAdminEnable, demoEnroll, demoFailRec, demoFailRec, demoFailRec, demoFailRec]
      "alice").2 overLimitState [] (.error "x") (by decide) (by decide) (by decide)⟩

/-- C2 counterexample: for enrolled, uncached `"alice"`, the failing third
attempt and a fourth attempt return two different error values, so the
third-attempt error is not "the same error a subsequent call beyond
MAX_ATTEMPTS returns". -/
theorem third_vs_fourth_error_values_differ :
    (recognize (runOps initState [demoAdminEnable, demoEnroll, demoFailRec, demoFailRec])
        "alice" [] (.error "engine boom")).1 = failedAfterErr
  ∧ (recognize (runOps initState
        [demoAdminEnable, demoEnroll, demoFailRec, demoFailRec, demoFailRec])
        "alice" [] (.error "engine boom")).1 = maxAttemptsErr
  ∧ failedAfterErr ≠ maxAttemptsErr :=
  ⟨by decide, by decide, by decide⟩

/-- C2 (amended): for every enrolled identity with no cached result, when
the external call fails and the post-increment count equals MAX_ATTEMPTS,
recognize returns the fixed error "Recognition failed after 3 attempts",
independent of the engine's message (which is suppressed); a subsequent
call beyond MAX_ATTEMPTS returns an attempts-exceeded error as well, but
with a different message ("Maximum recognition attempts exceeded"). -/
theorem final_attempt_error_suppression :
    ∀ (s : CanisterState) (p : Principal) (img : List Nat) (e e' : String),
      p ∈ s.addCallers → getResult s p = none →
      getAttempts s p + 1 = MAX_ATTEMPTS →
      (recognize s p img (.error e)).1 = failedAfterErr
    ∧ (recognize s p img (.error e)).1 = (recognize s p img (.error e')).1
    ∧ (∀ (t : CanisterState), p ∈ t.addCallers → getResult t p = none →
         MAX_ATTEMPTS < (getAttempts t p + 1) % U32_MOD →
         (recognize t p img (.error e)).1 = maxAttemptsErr)
    ∧ failedAfterErr ≠ maxAttemptsErr := by
  intro s p img e e' hc hr ha
  have ha' : (getAttempts s p + 1) % U32_MOD = MAX_ATTEMPTS := by
    rw [ha]
    norm_num [MAX_ATTEMPTS, U32_MOD]
  refine ⟨?_, ?_, ?_, by decide⟩
  · rw [recognize_fail_last s p img e hc hr ha']
  · rw [recognize_fail_last s p img e hc hr ha', recognize_fail_last s p img e' hc hr ha']
  · intro t hc' hr' hb
    rw [recognize_over t p img (.error e) hc' hr' hb]

theorem final_attempt_error_suppression_witness :
    (recognize nearLimitState "alice" [] (.error "boom")).1 = failedAfterErr
  ∧ (recognize nearLimitState "alice" [] (.error "boom")).1
      = (recognize nearLimitState "alice" [] (.error "other")).1
  ∧ (recognize overLimitState "alice" [] (.error "boom")).1 = maxAttemptsErr :=
  ⟨(final_attempt_error_suppression nearLimitState "alice" [] "boom" "other"
      (by decide) (by decide) (by decide)).1,
   (final_attempt_error_suppression nearLimitState "alice" [] "boom" "other"
      (by decide) (by decide) (by decide)).2.1,
   (final_attempt_error_suppression nearLimitState "alice" [] "boom" "other"
      (by decide) (by decide) (by decide)).2.2.1 overLimitState
      (by decide) (by decide) (by decide)⟩

/-- C3: for every identity not in the enrollment set, recognize returns the
Unauthorized error, whatever the attempt counter holds, without invoking
the inference engine and without mutating any state. -/
theorem unenrolled_recognize_unauthorized :
    ∀ (s : CanisterState) (p : Principal) (img : List Nat) (eng : Except String Person),
      p ∉ s.addCallers →
      recognize s p img eng = (unauthorizedErr, s, false) := by
  intro s p img eng h
  exact recognize_not_enrolled s p img eng h

theorem unenrolled_recognize_unauthorized_witness :
    recognize overLimitState "bob" [] (.error "x") = (unauthorizedErr, overLimitState, false) :=
  unenrolled_recognize_unauthorized overLimitState "bob" [] (.error "x") (by decide)

/-- C4: for every identity with a cached result in a reachable state,
every subsequent recognize call returns the AlreadyRecognized error with
the state untouched and no engine invocation, and no later sequence of
operations ever changes the cached entry. -/
theorem cached_identity_terminal :
    ∀ (ops : List Op) (p : Principal) (r : String × Score),
      getResult (runOps initState ops) p = some r →
      (∀ (img : List Nat) (eng : Except String Person),
         recognize (runOps initState ops) p img eng
           = (alreadyErr, runOps initState ops, false))
    ∧ (∀ (more : List Op), getResult (runOps (runOps initState ops) more) p = some r) := by
  intro ops p r h
  have hinv : CachedEnrolled (runOps initState ops) :=
    runOps_cachedEnrolled ops initState initState_cachedEnrolled
  have hc : p ∈ (runOps initState ops).addCallers := hinv p (by simp [h])
  constructor
  · intro img eng
    exact recognize_cached _ p img eng hc (by simp [h])
  · intro more
    exact runOps_result_stable more _ p r h

theorem cached_identity_terminal_witness :
    recognize (runOps initState [demoAdminEnable, demoEnroll, demoOkRec]) "alice" []
        (.error "again")
      = (alreadyErr, runOps initState [demoAdminEnable, demoEnroll, demoOkRec], false)
  ∧ getResult (runOps (runOps initState [demoAdminEnable, demoEnroll, demoOkRec])
        [demoFailRec, demoAdminEnable]) "alice" = some ("carol", 1) :=
  ⟨(cached_identity_terminal [demoAdminEnable, demoEnroll, demoOkRec] "alice" ("carol", 1)
      (by decide)).1 [] (.error "again"),
   (cached_identity_terminal [demoAdminEnable, demoEnroll, demoOkRec] "alice" ("carol", 1)
      (by decide)).2 [demoFailRec, demoAdminEnable]⟩

/-- C5: add performs its precondition checks in the fixed order
anonymous caller, access-code mismatch, feature flag disabled, already
enrolled, capacity reached, label already recognized; the first failing
check determines the (distinct) error, the state is untouched, and the external
inference add is invoked exactly when all six checks pass. -/
theorem add_check_order :
    ∀ (s : CanisterState) (c : Principal) (l : String) (img : List Nat)
      (code : String) (eng : Except String Embedding),
      (c = anonymousPrincipal →
        add s c l img code eng = (.err ⟨"Anonymous callers are not allowed"⟩, s, false))
    ∧ (c ≠ anonymousPrincipal → code ≠ "qMu11Dfmw" →
        add s c l img code eng = (.err ⟨"Unauthorized frontend access"⟩, s, false))
    ∧ (c ≠ anonymousPrincipal → code = "qMu11Dfmw" → s.isEnabled = false →
        add s c l img code eng = (.err ⟨"This function is currently disabled"⟩, s, false))
    ∧ (c ≠ anonymousPrincipal → code = "qMu11Dfmw" → s.isEnabled = true →
        c ∈ s.addCallers →
        add s c l img code eng = (.err ⟨"You have already added a face"⟩, s, false))
    ∧ (c ≠ anonymousPrincipal → code = "qMu11Dfmw" → s.isEnabled = true →
        c ∉ s.addCallers → MAX_ADD_CALLS ≤ s.addCount →
        add s c l img code eng = (.err ⟨"Maximum number of add calls reached"⟩, s, false))
    ∧ (c ≠ anonymousPrincipal → code = "qMu11Dfmw" → s.isEnabled = true →
        c ∉ s.addCallers → s.addCount < MAX_ADD_CALLS →
        s.recognitionResults.any (fun e => e.2.1 = l) = true →
        add s c l img code eng =
          (.err ⟨"This face has already been recognized and cannot be added again"⟩, s, false))
    ∧ (c ≠ anonymousPrincipal → code = "qMu11Dfmw" → s.isEnabled = true →
        c ∉ s.addCallers → s.addCount < MAX_ADD_CALLS →
        s.recognitionResults.any (fun e => e.2.1 = l) = false →
        (add s c l img code eng).2.2 = true)
    ∧ ["Anonymous callers are not allowed", "Unauthorized frontend access",
        "This function is currently disabled", "You have already added a face",
        "Maximum number of add calls reached",
        "This face has already been recognized and cannot be added again"].Pairwise (· ≠ ·) := by
  intro s c l img code eng
  refine ⟨?_, ?_, ?_, ?_, ?_, ?_, ?_, by decide⟩
  · intro h1
    subst h1
    exact add_anon s l img code eng
  · intro h1 h2
    exact add_badcode s c l img code eng h1 h2
  · intro h1 h2 h3
    subst h2
    exact add_disabled s c l img eng h1 h3
  · intro h1 h2 h3 h4
    subst h2
    exact add_already s c l img eng h1 h3 h4
  · intro h1 h2 h3 h4 h5
    subst h2
    exact add_capacity s c l img eng h1 h3 h4 h5
  · intro h1 h2 h3 h4 h5 h6
    subst h2
    exact add_label_taken s c l img eng h1 h3 h4 h5 h6
  · intro h1 h2 h3 h4 h5 h6
    subst h2
    cases eng with
    | ok emb => rw [add_ok s c l img emb h1 h3 h4 h5 h6]
    | error msg => rw [add_engine_fail s c l img msg h1 h3 h4 h5 h6]

theorem add_check_order_witness :
    add initState "bob" "lbl" [] "wrong-code" (.ok ⟨1⟩)
      = (.err ⟨"Unauthorized frontend access"⟩, initState, false)
  ∧ (add enabledState "bob" "lbl" [] "qMu11Dfmw" (.error "engine down")).2.2 = true :=
  ⟨(add_check_order initState "bob" "lbl" [] "wrong-code" (.ok ⟨1⟩)).2.1
      (by decide) (by decide),
   (add_check_order enabledState "bob" "lbl" [] "qMu11Dfmw" (.error "engine down")).2.2.2.2.2.2.1
      (by decide) rfl (by decide) (by decide) (by decide) (by decide)⟩

/-- C6: whenever add returns an error — precondition failure or external
inference failure — the canister state is unchanged; registry mutation
happens only on the success path. -/
theorem add_error_no_mutation :
    ∀ (s : CanisterState) (c : Principal) (l : String) (img : List Nat)
      (code : String) (eng : Except String Embedding) (er : Error),
      (add s c l img code eng).1 = .err er →
      (add s c l img code eng).2.1 = s := by
  intro s c l img code eng er h
  rcases add_cases s c l img code eng with ⟨hs, _⟩ | ⟨emb, _, _, hok, _⟩
  · exact hs
  · rw [hok] at h
    simp at h

theorem add_error_no_mutation_witness :
    (add enabledState "bob" "lbl" [] "qMu11Dfmw" (.error "engine down")).2.1 = enabledState
  ∧ (add initState "carl" "lbl" [] "wrong-code" (.ok ⟨1⟩)).2.1 = initState :=
  ⟨add_error_no_mutation enabledState "bob" "lbl" [] "qMu11Dfmw" (.error "engine down")
      ⟨"engine down"⟩ (by decide),
   add_error_no_mutation initState "carl" "lbl" [] "wrong-code" (.ok ⟨1⟩)
      ⟨"Unauthorized frontend access"⟩ (by decide)⟩

/-- C7: from the initial state the enrollment counter always equals the
size of the (duplicate-free) enrollment set, never decreases across any
operation, equals the number of successful add calls in the history, and
no add can succeed once the counter has reached MAX_ADD_CALLS (200). -/
theorem enrollment_counter_properties :
    (∀ (ops : List Op),
        (runOps initState ops).addCount = (runOps initState ops).addCallers.length
      ∧ (runOps initState ops).addCallers.Nodup)
  ∧ (∀ (s : CanisterState) (op : Op), s.addCount ≤ (step s op).addCount)
  ∧ (∀ (ops : List Op), (runOps initState ops).addCount = successfulAdds initState ops)
  ∧ (∀ (s : CanisterState) (c : Principal) (l : String) (img : List Nat)
       (code : String) (eng : Except String Embedding),
       MAX_ADD_CALLS ≤ s.addCount →
       ∀ emb, (add s c l img code eng).1 ≠ .ok emb) := by
  refine ⟨?_, step_addCount_mono, ?_, ?_⟩
  · intro ops
    exact runOps_count_length_nodup ops initState (by simp [initState])
  · intro ops
    rw [runOps_addCount ops initState]
    simp [initState]
  · intro s c l img code eng h emb
    exact add_no_ok_at_capacity s c l img code eng h emb

theorem enrollment_counter_properties_witness :
    ((runOps initState [demoAdminEnable, demoEnroll]).addCount
        = (runOps initState [demoAdminEnable, demoEnroll]).addCallers.length
      ∧ (runOps initState [demoAdminEnable, demoEnroll]).addCallers.Nodup)
  ∧ (add fullState "bob" "lbl" [] "qMu11Dfmw" (.ok ⟨1⟩)).1 ≠ .ok ⟨1⟩ :=
  ⟨enrollment_counter_properties.1 [demoAdminEnable, demoEnroll],
   enrollment_counter_properties.2.2.2 fullState "bob" "lbl" [] "qMu11Dfmw" (.ok ⟨1⟩)
      (by decide) ⟨1⟩⟩

/-- C8: every caller other than the fixed admin identity gets an
Unauthorized-style error from toggle_add_function, the four
model-byte-maintenance operations, and setup_models, with no state
mutation and no collaborator call; with the admin identity each operation
performs its body. -/
theorem admin_gated_operations :
    ∀ (c : Principal),
      (c ≠ ADMIN_PRINCIPAL →
        (∀ (s : CanisterState) (e : Bool),
           toggle_add_function s c e = (.error "Only the admin can toggle this function", s))
      ∧ clear_face_detection_model_bytes c
          = (.err "Unauthorized: only the admin can perform this action", false)
      ∧ clear_face_recognition_model_bytes c
          = (.err "Unauthorized: only the admin can perform this action", false)
      ∧ (∀ (bytes : List Nat), append_face_detection_model_bytes c bytes
          = (.err "Unauthorized: only the admin can perform this action", false))
      ∧ (∀ (bytes : List Nat), append_face_recognition_model_bytes c bytes
          = (.err "Unauthorized: only the admin can perform this action", false))
      ∧ (∀ (es : Except String Unit), setup_models c es
          = (.err "Unauthorized: only the admin can perform this action", false)))
    ∧ (c = ADMIN_PRINCIPAL →
        (∀ (s : CanisterState) (e : Bool),
           toggle_add_function s c e = (.ok (), { s with isEnabled := e }))
      ∧ (clear_face_detection_model_bytes c).2 = true
      ∧ (clear_face_recognition_model_bytes c).2 = true
      ∧ (∀ (bytes : List Nat), (append_face_detection_model_bytes c bytes).2 = true)
      ∧ (∀ (bytes : List Nat), (append_face_recognition_model_bytes c bytes).2 = true)
      ∧ (∀ (es : Except String Unit), (setup_models c es).2 = true)) := by
  intro c
  constructor
  · intro h
    have hra : require_admin c = .error "Unauthorized: only the admin can perform this action" := by
      simp [require_admin, principalFromText, h]
    exact ⟨fun s e => by simp [toggle_add_function, principalFromText, h],
      by simp [clear_face_detection_model_bytes, hra],
      by simp [clear_face_recognition_model_bytes, hra],
      fun bytes => by simp [append_face_detection_model_bytes, hra],
      fun bytes => by simp [append_face_recognition_model_bytes, hra],
      fun es => by simp [setup_models, hra]⟩
  · intro h
    subst h
    have hra : require_admin ADMIN_PRINCIPAL = .ok () := by
      simp [require_admin, principalFromText]
    exact ⟨fun s e => by simp [toggle_add_function, principalFromText],
      by simp [clear_face_detection_model_bytes, hra],
      by simp [clear_face_recognition_model_bytes, hra],
      fun bytes => by simp [append_face_detection_model_bytes, hra],
      fun bytes => by simp [append_face_recognition_model_bytes, hra],
      fun es => by cases es <;> simp [setup_models, hra]⟩

theorem admin_gated_operations_witness :
    toggle_add_function enabledState "mallory" false
      = (.error "Only the admin can toggle this function", enabledState)
  ∧ setup_models "mallory" (.ok ())
      = (.err "Unauthorized: only the admin can perform this action", false)
  ∧ (setup_models ADMIN_PRINCIPAL (.ok ())).2 = true :=
  ⟨((admin_gated_operations "mallory").1 (by decide)).1 enabledState false,
   ((admin_gated_operations "mallory").1 (by decide)).2.2.2.2.2 (.ok ()),
   ((admin_gated_operations ADMIN_PRINCIPAL).2 rfl).2.2.2.2.2 (.ok ())⟩

/-- C9 counterexample: after enrolling, five recognize calls with a
failing engine drive `"alice"`'s attempt counter to 5, which exceeds
MAX_ATTEMPTS + 1 = 4 — the counter does not stay within MAX_ATTEMPTS+1
observable states. -/
theorem attempt_counter_exceeds_bound :
    getAttempts (runOps initState
      [demoAdminEnable, demoEnroll, demoFailRec, demoFailRec, demoFailRec,
       demoFailRec, demoFailRec]) "alice" = 5
  ∧ MAX_ATTEMPTS + 1 < 5 :=
  ⟨by decide, by decide⟩

/-- C9 (amended): the attempt counter is bumped by every recognize call
that passes the enrollment and cache checks — even ones rejected for
exceeding the ceiling — so its value is not bounded by MAX_ATTEMPTS+1;
but once a final recognition result exists for an identity, no operation
modifies that identity's counter and recognize's answer for that identity
no longer depends on the counter's value. -/
theorem attempt_counter_terminal_behavior :
    (∀ (s : CanisterState) (op : Op) (p : Principal),
       (getResult s p).isSome → getAttempts (step s op) p = getAttempts s p)
  ∧ (∀ (s : CanisterState) (p : Principal) (img : List Nat)
       (eng : Except String Person) (n m : Nat),
       (getResult s p).isSome →
       (recognize { s with recognitionAttempts := setAssoc s.recognitionAttempts p n }
          p img eng).1
         = (recognize { s with recognitionAttempts := setAssoc s.recognitionAttempts p m }
          p img eng).1)
  ∧ (∃ (ops : List Op) (p : Principal),
       MAX_ATTEMPTS + 1 < getAttempts (runOps initState ops) p) := by
  refine ⟨?_, ?_, ?_⟩
  · intro s op p hp
    cases op with
    | recognizeOp c img eng =>
        by_cases hcp : c = p
        · subst hcp
          by_cases hc : c ∈ s.addCallers
          · rw [step, recognize_cached s c img eng hc hp]
          · rw [step, recognize_not_enrolled s c img eng hc]
        · rw [step]
          exact recognize_attempts_other s c img eng p hcp
    | addOp c l img code eng => exact step_attempts_addOp s c l img code eng p
    | toggleOp c e => exact step_attempts_toggleOp s c e p
  · intro s p img eng n m hp
    by_cases hc : p ∈ s.addCallers
    · rw [recognize_cached
          { s with recognitionAttempts := setAssoc s.recognitionAttempts p n }
          p img eng hc (by simpa [getResult] using hp),
        recognize_cached
          { s with recognitionAttempts := setAssoc s.recognitionAttempts p m }
          p img eng hc (by simpa [getResult] using hp)]
    · rw [recognize_not_enrolled
          { s with recognitionAttempts := setAssoc s.recognitionAttempts p n }
          p img eng hc,
        recognize_not_enrolled
          { s with recognitionAttempts := setAssoc s.recognitionAttempts p m }
          p img eng hc]
  · exact ⟨[demoAdminEnable, demoEnroll, demoFailRec, demoFailRec, demoFailRec,
      demoFailRec, demoFailRec], "alice", by decide⟩

theorem attempt_counter_terminal_behavior_witness :
    getAttempts (step (runOps initState [demoAdminEnable, demoEnroll, demoOkRec])
        demoFailRec) "alice"
      = getAttempts (runOps initState [demoAdminEnable, demoEnroll, demoOkRec]) "alice"
  ∧ (recognize { nearLimitState with
        recognitionResults := [("alice", ("carol", 1))],
        recognitionAttempts := setAssoc nearLimitState.recognitionAttempts "alice" 0 }
        "alice" [] (.error "x")).1
      = (recognize { nearLimitState with
          recognitionResults := [("alice", ("carol", 1))],
          recognitionAttempts := setAssoc nearLimitState.recognitionAttempts "alice" 7 }
          "alice" [] (.error "x")).1 :=
  ⟨attempt_counter_terminal_behavior.1 (runOps initState [demoAdminEnable, demoEnroll, demoOkRec])
      demoFailRec "alice" (by decide),
   attempt_counter_terminal_behavior.2.1
      { nearLimitState with recognitionResults := [("alice", ("carol", 1))] }
      "alice" [] (.error "x") 0 7 (by decide)⟩

/-- C10: the read-only queries perform no authorization check — their
output is identical for every caller identity (anonymous included) —
and they return the stored data: the cached entry for the queried user,
the full enrolled list with its count, and one formatted line per cached
recognition result. -/
theorem queries_caller_independent :
    ∀ (s : CanisterState) (c₁ c₂ : Principal) (user : Principal),
      get_recognition_result s c₁ user = get_recognition_result s c₂ user
    ∧ get_add_callers s c₁ = get_add_callers s c₂
    ∧ get_all_recognition_results s c₁ = get_all_recognition_results s c₂
    ∧ (∀ (r : String × Score), getResult s user = some r →
         get_recognition_result s c₁ user = some { label := r.1, score := r.2 })
    ∧ (get_add_callers s c₁).2 = s.addCallers
    ∧ (get_add_callers s c₁).1 = s.addCallers.length
    ∧ (get_all_recognition_results s c₁).length = s.recognitionResults.length := by
  intro s c₁ c₂ user
  refine ⟨rfl, rfl, rfl, ?_, rfl, rfl, ?_⟩
  · intro r hr
    simp [get_recognition_result, hr]
  · simp [get_all_recognition_results]

theorem queries_caller_independent_witness :
    get_recognition_result nearLimitState anonymousPrincipal "alice"
      = get_recognition_result nearLimitState ADMIN_PRINCIPAL "alice"
  ∧ get_recognition_result
      { nearLimitState with recognitionResults := [("alice", ("carol", 1))] }
      anonymousPrincipal "alice" = some { label := "carol", score := 1 } :=
  ⟨(queries_caller_independent nearLimitState anonymousPrincipal ADMIN_PRINCIPAL "alice").1,
   (queries_caller_independent
      { nearLimitState with recognitionResults := [("alice", ("carol", 1))] }
      anonymousPrincipal ADMIN_PRINCIPAL "alice").2.2.2.1 ("carol", 1) (by decide)⟩
